import Mathlib

/-!
# Model of the microbit-dal quadrature decoder drivers

Shallow embedding of `source/drivers/MicroBitQuadratureDecoder.cpp` (the two
near-duplicate driver classes `MicroBitQuadratureDecoder` and `MicroBitQDec`,
declared in `inc/drivers/MicroBitQuadratureDecoder.h`).

Machine integers are modelled as `Nat`/`Int` with explicit reductions modulo
`2^w` where overflow can occur.  The NRF_QDEC peripheral register block is a
record of register values plus the two internal accumulators (transition delta
and double-transition count); the `TASKS_READCLRACC` task transfers the
accumulators into the `ACCREAD`/`ACCDBLREAD` read registers and clears them,
per the collaborator contract in the spec (section 6).

Externally visible calls (writes to hardware registers, pin event-mode
changes, and registration/deregistration with the periodic-tick dispatcher
`system_timer_add_component` / `system_timer_remove_component`) are recorded
in an `DrvAction` trace, in program order, so that ordering properties can be
stated.  The dispatcher itself is modelled, per spec section 6, as a single
`registered` flag for the instance under consideration (`add` registers,
`remove` deregisters; re-adding an already registered component keeps it
registered once).
-/

/-- Two's-complement wrap of an unbounded integer into the `int64_t`
range `[-2^63, 2^63)`, used wherever the source stores into the
`int64_t position` field. -/
def wrap64 (x : Int) : Int := (x + 2^63) % 2^64 - 2^63

/-- The value of the C cast `(int32_t)u` applied to a `uint32_t` register
content `u < 2^32`: reinterpret the 32-bit pattern as a signed value. -/
def int32OfUint32 (u : Nat) : Int :=
  if u < 2^31 then (u : Int) else (u : Int) - 2^32

/-- The value of the C conversion of a (possibly negative) `int` to
`uint32_t`, e.g. when an `int` is stored into a 32-bit hardware register. -/
def uint32OfInt (x : Int) : Nat := (x % (2^32 : Int)).toNat

/-- The mbed `NC` ("not connected") pin sentinel, `(int)0xFFFFFFFF`.
Modelled from the spec: the pin abstraction (mbed `PinNames.h`) is not under
`src/`; the spec (section 6) only requires a distinguished "unconnected"
sentinel value. -/
def NC_PIN : Nat := 4294967295

/-- Result codes surfaced to callers.  Modelled from the spec: `ErrorNo.h`
(`MICROBIT_OK`, `MICROBIT_BUSY`, `MICROBIT_INVALID_PARAMETER`) is not under
`src/`; the spec (section 6) requires three distinct codes `Ok`, `Busy`,
`InvalidParameter`. -/
inductive DriverResult where
  | ok
  | busy
  | invalidParameter
deriving DecidableEq, Repr

/-- Names of the NRF_QDEC registers written by the drivers. -/
inductive Reg where
  | shorts
  | intenclr
  | ledpol
  | sampleper
  | reportper
  | pselled
  | psela
  | pselb
  | dbfen
  | ledpre
  | tasksReadClrAcc
  | tasksStart
  | tasksStop
  | enable
deriving DecidableEq, Repr

/-- Externally visible actions performed by a driver operation, in program
order: hardware register writes, pin event-mode disabling
(`pin.eventOn(MICROBIT_PIN_EVENT_NONE)`), and periodic-tick dispatcher
registration (`system_timer_add_component`) / deregistration
(`system_timer_remove_component`). -/
inductive DrvAction where
  | addComp
  | removeComp
  | writeReg (r : Reg) (v : Nat)
  | pinEventOff (pin : Nat)
deriving DecidableEq, Repr

/-- The NRF_QDEC peripheral: configuration/task registers written by the
drivers, plus the internal accumulators (`acc`: signed transition delta
accumulated since the last drain; `accdbl`: double-transition count since the
last drain) and the read registers they are transferred into. -/
structure QDecHw where
  enable : Nat
  shorts : Nat
  intenclr : Nat
  ledpol : Nat
  sampleper : Nat
  reportper : Nat
  pselled : Nat
  psela : Nat
  pselb : Nat
  dbfen : Nat
  ledpre : Nat
  acc : Int
  accdbl : Nat
  accread : Nat
  accdblread : Nat
deriving DecidableEq, Repr

/-- Effect of triggering `TASKS_READCLRACC`: the accumulators are transferred
into `ACCREAD`/`ACCDBLREAD` (as 32-bit register contents) and cleared. -/
def readClrAcc (h : QDecHw) : QDecHw :=
  { h with
    accread := uint32OfInt h.acc
    acc := 0
    accdblread := h.accdbl % 2^32
    accdbl := 0 }

/-- Environment shared by all instances: the peripheral register block and
whether the instance under consideration is currently registered with the
periodic-tick dispatcher. -/
structure World where
  hw : QDecHw
  registered : Bool
deriving DecidableEq, Repr

/-- Output of a `void` driver operation: updated instance state, updated
environment, and the trace of externally visible actions in program order. -/
structure StepOut (σ : Type) where
  state : σ
  world : World
  trace : List DrvAction
deriving DecidableEq, Repr

/-- Output of a driver operation returning a result code. -/
structure StartOut (σ : Type) where
  state : σ
  world : World
  trace : List DrvAction
  result : DriverResult
deriving DecidableEq, Repr

/-- The `sampleper` selection loop of both `start()` implementations, at loop
counter `k`:
`for (sampleper = 7; sampleper >= 0; --sampleper)
   if ((128u << sampleper) <= samplePeriod) break;`
Counts down from `k`; returns the first level whose period fits, or `-1` when
the loop falls through (`sampleper` ends at `-1` after the final decrement). -/
def sampleperGo (p : Nat) : Nat → Int
  | 0 => if 128 ≤ p then 0 else -1
  | k + 1 => if 128 * 2^(k + 1) ≤ p then ((k : Int) + 1) else sampleperGo p k

/-- Value of the loop variable `sampleper` after the selection loop in
`start()`, for configured period `p` (`samplePeriod`, a `uint32_t`). -/
def sampleperFor (p : Nat) : Int := sampleperGo p 7

/-! ## The legacy class `MicroBitQuadratureDecoder`

Its `uint16_t status` field is accessed only through the fixed masks
`MICROBIT_COMPONENT_RUNNING` (bit 0, modelled from the spec: the
`MicroBitComponent` base class is not under `src/`; upstream defines the
running bit as `0x01` and the spec's data model calls it the `running` flag),
`QDEC_STATUS_USING_SYSTEM_TICK` (`0x02`), `QDEC_STATUS_USING_DEBOUNCE`
(`0x04`) and `QDEC_STATUS_LED_ACTIVE_LOW` (`0x08`), so the four bits are
modelled as named booleans.  (Bits of the constructor's `flags` argument above
bit 3 are stored by the source but never read.) -/

/-- Instance state of `MicroBitQuadratureDecoder`
(fields of the class in `inc/drivers/MicroBitQuadratureDecoder.h`). -/
structure QuadState where
  running : Bool
  usingSystemTick : Bool
  usingDebounce : Bool
  ledActiveLow : Bool
  position : Int
  samplePeriod : Nat
  errors : Nat
  LEDDelay : Nat
  phaseA : Nat
  phaseB : Nat
  LED : Nat
deriving DecidableEq, Repr

/-- The five-argument constructor
`MicroBitQuadratureDecoder(phaseA, phaseB, LED, LEDDelay, flags)`:
`status = flags & ~MICROBIT_COMPONENT_RUNNING`, all other fields from their
in-class initializers (`position = 0`, `samplePeriod = 128`, `errors = 0`).
No hardware access and no dispatcher call occurs (empty trace, environment
passed through unchanged). -/
def Quad.construct (phaseA phaseB LED LEDDelay flags : Nat) (w : World) :
    StepOut QuadState :=
  ⟨{ running := false
     usingSystemTick := Nat.testBit (flags % 256) 1
     usingDebounce := Nat.testBit (flags % 256) 2
     ledActiveLow := Nat.testBit (flags % 256) 3
     position := 0
     samplePeriod := 128
     errors := 0
     LEDDelay := LEDDelay % 256
     phaseA := phaseA
     phaseB := phaseB
     LED := LED }, w, []⟩

/-- The three-argument constructor
`MicroBitQuadratureDecoder(phaseA, phaseB, flags)`:
`status = flags & ~MICROBIT_COMPONENT_RUNNING & ~QDEC_STATUS_LED_ACTIVE_LOW`,
`LED = pinNC`, `LEDDelay` keeps its in-class initializer `0`. -/
def Quad.constructNoLed (phaseA phaseB flags : Nat) (w : World) :
    StepOut QuadState :=
  ⟨{ running := false
     usingSystemTick := Nat.testBit (flags % 256) 1
     usingDebounce := Nat.testBit (flags % 256) 2
     ledActiveLow := false
     position := 0
     samplePeriod := 128
     errors := 0
     LEDDelay := 0
     phaseA := phaseA
     phaseB := phaseB
     LED := NC_PIN }, w, []⟩

/-- `MicroBitQuadratureDecoder::enableSystemTick()`: if the flag is not yet
set, set it, and if the instance is running, register with the dispatcher. -/
def Quad.enableSystemTick (s : QuadState) (w : World) : StepOut QuadState :=
  if s.usingSystemTick then ⟨s, w, []⟩
  else
    ⟨{ s with usingSystemTick := true },
     { w with registered := if s.running then true else w.registered },
     if s.running then [DrvAction.addComp] else []⟩

/-- `MicroBitQuadratureDecoder::disableSystemTick()`: clear the flag, and if
the instance is running, deregister from the dispatcher. -/
def Quad.disableSystemTick (s : QuadState) (w : World) : StepOut QuadState :=
  ⟨{ s with usingSystemTick := false },
   { w with registered := if s.running then false else w.registered },
   if s.running then [DrvAction.removeComp] else []⟩

/-- `MicroBitQuadratureDecoder::setSamplePeriodUs(period)`: reject periods
below 128 microseconds, otherwise store the period. -/
def Quad.setSamplePeriodUs (s : QuadState) (period : Nat) :
    QuadState × DriverResult :=
  if period < 128 then (s, DriverResult.invalidParameter)
  else ({ s with samplePeriod := period }, DriverResult.ok)

/-- `MicroBitQuadratureDecoder::getSamplePeriod()`. -/
def Quad.getSamplePeriod (s : QuadState) : Nat := s.samplePeriod

/-- `MicroBitQuadratureDecoder::getPosition()`. -/
def Quad.getPosition (s : QuadState) : Int := s.position

/-- `MicroBitQuadratureDecoder::getErrors()`. -/
def Quad.getErrors (s : QuadState) : Nat := s.errors

/-- `MicroBitQuadratureDecoder::start()` (source lines 126-175): compute the
`sampleper` level; fail `MICROBIT_BUSY` when the peripheral is enabled or the
instance is running; otherwise program the registers in source order, disable
pin events, clear the accumulators (`TASKS_READCLRACC`), enable and start the
peripheral, set the running flag, and — when `QDEC_STATUS_USING_SYSTEM_TICK`
is set — call `system_timer_remove_component(this)`. -/
def Quad.start (s : QuadState) (w : World) : StartOut QuadState :=
  if w.hw.enable != 0 || s.running then ⟨s, w, [], DriverResult.busy⟩
  else
    ⟨{ s with running := true },
     { hw :=
        { readClrAcc
          { w.hw with
            shorts := 0
            intenclr := 2^32 - 1
            ledpol := if s.ledActiveLow then 0 else 1
            sampleper := uint32OfInt (sampleperFor s.samplePeriod)
            reportper := 7
            pselled := s.LED
            psela := s.phaseA
            pselb := s.phaseB
            dbfen := if s.usingDebounce then 1 else 0
            ledpre := s.LEDDelay } with
          enable := 1 },
       registered := if s.usingSystemTick then false else w.registered },
     [DrvAction.writeReg Reg.shorts 0,
      DrvAction.writeReg Reg.intenclr (2^32 - 1),
      DrvAction.writeReg Reg.ledpol (if s.ledActiveLow then 0 else 1),
      DrvAction.writeReg Reg.sampleper (uint32OfInt (sampleperFor s.samplePeriod)),
      DrvAction.writeReg Reg.reportper 7,
      DrvAction.writeReg Reg.pselled s.LED,
      DrvAction.writeReg Reg.psela s.phaseA,
      DrvAction.writeReg Reg.pselb s.phaseB,
      DrvAction.writeReg Reg.dbfen (if s.usingDebounce then 1 else 0),
      DrvAction.writeReg Reg.ledpre s.LEDDelay]
     ++ (if s.LED != NC_PIN then [DrvAction.pinEventOff s.LED] else [])
     ++ [DrvAction.pinEventOff s.phaseA,
         DrvAction.pinEventOff s.phaseB,
         DrvAction.writeReg Reg.tasksReadClrAcc 1,
         DrvAction.writeReg Reg.enable 1,
         DrvAction.writeReg Reg.tasksStart 1]
     ++ (if s.usingSystemTick then [DrvAction.removeComp] else []),
     DriverResult.ok⟩

/-- `MicroBitQuadratureDecoder::stop()` (source lines 180-191): when
`QDEC_STATUS_USING_SYSTEM_TICK` is set, deregister from the dispatcher
*first*; then, if running, trigger `TASKS_STOP`, clear `ENABLE` and clear the
running flag. -/
def Quad.stop (s : QuadState) (w : World) : StepOut QuadState :=
  ⟨if s.running then { s with running := false } else s,
   { hw := if s.running then { w.hw with enable := 0 } else w.hw,
     registered := if s.usingSystemTick then false else w.registered },
   (if s.usingSystemTick then [DrvAction.removeComp] else [])
   ++ (if s.running then
        [DrvAction.writeReg Reg.tasksStop 1, DrvAction.writeReg Reg.enable 0]
      else [])⟩

/-- `MicroBitQuadratureDecoder::poll()` (source lines 201-206): trigger
`TASKS_READCLRACC`, add `(int32_t)ACCREAD` to the `int64_t position`, and set
`errors = min(UINT16_MAX, errors + ACCDBLREAD)` (the sum computed in
`uint32_t` arithmetic, the result stored back into the `uint16_t` field). -/
def Quad.poll (s : QuadState) (h : QDecHw) : QuadState × QDecHw :=
  ({ s with
     position := wrap64 (s.position + int32OfUint32 (readClrAcc h).accread)
     errors := min 65535 ((s.errors + (readClrAcc h).accdblread) % 2^32) },
   readClrAcc h)

/-- `MicroBitQuadratureDecoder::resetPosition(position)`: unconditionally
overwrite the `int64_t position` field.  Touches no hardware register and
makes no dispatcher call (empty trace, environment unchanged). -/
def Quad.resetPosition (s : QuadState) (v : Int) (w : World) :
    StepOut QuadState :=
  ⟨{ s with position := wrap64 v }, w, []⟩

/-- A sequence of hardware drains for `MicroBitQuadratureDecoder`: before
each `poll()`, the peripheral has accumulated the signed transition delta `d`
and the double-transition count `e` since the previous drain (the previous
`poll()` left both accumulators at zero, so accumulating amounts to setting
them). -/
def Quad.pollSeq : QuadState → QDecHw → List (Int × Nat) → QuadState × QDecHw
  | s, h, [] => (s, h)
  | s, h, (d, e) :: rest =>
      Quad.pollSeq (Quad.poll s { h with acc := d, accdbl := e }).1
        (Quad.poll s { h with acc := d, accdbl := e }).2 rest

/-! ## The struct-configured class `MicroBitQDec`

Here `useSystemTick`, `activeHighLED` and `useDebounce` are `bool` fields of
the class itself; only the running bit lives in the inherited `status` field
(bit 0, modelled as the boolean `running`; the `MicroBitComponent` base class
is not under `src/` and, modelled from the spec, zero-initializes `status`
so a fresh instance is not running). -/

/-- Configuration struct `QDecExtraConfig` with its in-struct defaults. -/
structure QDecExtraConfig where
  samplePeriod : Nat := 128
  LEDDelay : Nat := 0
  activeHighLED : Bool := true
  useDebounce : Bool := false
deriving DecidableEq, Repr

/-- Instance state of `MicroBitQDec`. -/
structure QDecState where
  running : Bool
  useSystemTick : Bool
  activeHighLED : Bool
  useDebounce : Bool
  position : Int
  samplePeriod : Nat
  errors : Nat
  LEDDelay : Nat
  phaseA : Nat
  phaseB : Nat
  LED : Nat
deriving DecidableEq, Repr

/-- The constructor `MicroBitQDec(phaseA, phaseB, LED, cfg)` (source lines
284-294): a null `cfg` means the static defaults; the body assigns
`samplePeriod`, `activeHighLED`, `useDebounce`, `LEDDelay` from the config
and sets `position = 0`.  The `errors` member has no in-class initializer and
is never assigned by the constructor, so (for automatic or dynamic storage)
it keeps the indeterminate residual content of its memory, modelled by the
`residualErrors` parameter.  `running` is false: modelled from the spec,
the `MicroBitComponent` base class (not under `src/`) zero-initializes
`status`.  No hardware access, no dispatcher call. -/
def QDec.construct (phaseA phaseB LED : Nat) (cfg : Option QDecExtraConfig)
    (residualErrors : Nat) (w : World) : StepOut QDecState :=
  ⟨{ running := false
     useSystemTick := false
     activeHighLED := (cfg.getD {}).activeHighLED
     useDebounce := (cfg.getD {}).useDebounce
     position := 0
     samplePeriod := (cfg.getD {}).samplePeriod % 2^32
     errors := residualErrors % 2^32
     LEDDelay := (cfg.getD {}).LEDDelay % 256
     phaseA := phaseA
     phaseB := phaseB
     LED := LED }, w, []⟩

/-- `MicroBitQDec::enableSystemTick()`: same logic as the legacy class, with
the boolean `useSystemTick` field in place of the status bit. -/
def QDec.enableSystemTick (s : QDecState) (w : World) : StepOut QDecState :=
  if s.useSystemTick then ⟨s, w, []⟩
  else
    ⟨{ s with useSystemTick := true },
     { w with registered := if s.running then true else w.registered },
     if s.running then [DrvAction.addComp] else []⟩

/-- `MicroBitQDec::disableSystemTick()`. -/
def QDec.disableSystemTick (s : QDecState) (w : World) : StepOut QDecState :=
  ⟨{ s with useSystemTick := false },
   { w with registered := if s.running then false else w.registered },
   if s.running then [DrvAction.removeComp] else []⟩

/-- `MicroBitQDec::getPosition()`. -/
def QDec.getPosition (s : QDecState) : Int := s.position

/-- `MicroBitQDec::getErrors()`. -/
def QDec.getErrors (s : QDecState) : Nat := s.errors

/-- `MicroBitQDec::start()` (source lines 336-384): identical to the legacy
`start()` except that `LEDPOL` comes from `activeHighLED` (`1` when
active-high), `DBFEN` from `useDebounce`, and the
`system_timer_remove_component(this)` call (made when `useSystemTick` is set)
happens between `ENABLE = 1` and `TASKS_START = 1` rather than after the
running flag is set. -/
def QDec.start (s : QDecState) (w : World) : StartOut QDecState :=
  if w.hw.enable != 0 || s.running then ⟨s, w, [], DriverResult.busy⟩
  else
    ⟨{ s with running := true },
     { hw :=
        { readClrAcc
          { w.hw with
            shorts := 0
            intenclr := 2^32 - 1
            ledpol := if s.activeHighLED then 1 else 0
            sampleper := uint32OfInt (sampleperFor s.samplePeriod)
            reportper := 7
            pselled := s.LED
            psela := s.phaseA
            pselb := s.phaseB
            dbfen := if s.useDebounce then 1 else 0
            ledpre := s.LEDDelay } with
          enable := 1 },
       registered := if s.useSystemTick then false else w.registered },
     [DrvAction.writeReg Reg.shorts 0,
      DrvAction.writeReg Reg.intenclr (2^32 - 1),
      DrvAction.writeReg Reg.ledpol (if s.activeHighLED then 1 else 0),
      DrvAction.writeReg Reg.sampleper
        (uint32OfInt (sampleperFor s.samplePeriod)),
      DrvAction.writeReg Reg.reportper 7,
      DrvAction.writeReg Reg.pselled s.LED,
      DrvAction.writeReg Reg.psela s.phaseA,
      DrvAction.writeReg Reg.pselb s.phaseB,
      DrvAction.writeReg Reg.dbfen (if s.useDebounce then 1 else 0),
      DrvAction.writeReg Reg.ledpre s.LEDDelay]
     ++ (if s.LED != NC_PIN then [DrvAction.pinEventOff s.LED] else [])
     ++ [DrvAction.pinEventOff s.phaseA,
         DrvAction.pinEventOff s.phaseB,
         DrvAction.writeReg Reg.tasksReadClrAcc 1,
         DrvAction.writeReg Reg.enable 1]
     ++ (if s.useSystemTick then [DrvAction.removeComp] else [])
     ++ [DrvAction.writeReg Reg.tasksStart 1],
     DriverResult.ok⟩

/-- `MicroBitQDec::stop()` (source lines 389-399): if running, trigger
`TASKS_STOP`, clear `ENABLE` and clear the running flag; *then*, when
`useSystemTick` is set, deregister from the dispatcher (the opposite order to
the legacy class, which deregisters first). -/
def QDec.stop (s : QDecState) (w : World) : StepOut QDecState :=
  ⟨if s.running then { s with running := false } else s,
   { hw := if s.running then { w.hw with enable := 0 } else w.hw,
     registered := if s.useSystemTick then false else w.registered },
   (if s.running then
      [DrvAction.writeReg Reg.tasksStop 1, DrvAction.writeReg Reg.enable 0]
    else [])
   ++ (if s.useSystemTick then [DrvAction.removeComp] else [])⟩

/-- `MicroBitQDec::poll()` (source lines 409-414): trigger
`TASKS_READCLRACC`, add `(int32_t)ACCREAD` to the `int64_t position`, and do
`errors += ACCDBLREAD` in plain `uint32_t` arithmetic (no saturation). -/
def QDec.poll (s : QDecState) (h : QDecHw) : QDecState × QDecHw :=
  ({ s with
     position := wrap64 (s.position + int32OfUint32 (readClrAcc h).accread)
     errors := (s.errors + (readClrAcc h).accdblread) % 2^32 },
   readClrAcc h)

/-- `MicroBitQDec::resetPosition(position)`. -/
def QDec.resetPosition (s : QDecState) (v : Int) (w : World) :
    StepOut QDecState :=
  ⟨{ s with position := wrap64 v }, w, []⟩

/-- A sequence of hardware drains for `MicroBitQDec`: before each `poll()`
the peripheral has accumulated signed delta `d` and double-transition count
`e` since the previous drain. -/
def QDec.pollSeq : QDecState → QDecHw → List (Int × Nat) → QDecState × QDecHw
  | s, h, [] => (s, h)
  | s, h, (d, e) :: rest =>
      QDec.pollSeq (QDec.poll s { h with acc := d, accdbl := e }).1
        (QDec.poll s { h with acc := d, accdbl := e }).2 rest

/-! ## Concrete fixtures used by witnesses and counterexamples -/

/-- A quiescent hardware block: disabled, all registers and accumulators 0. -/
def hw0 : QDecHw := ⟨0, 0, 0, 0, 0, 0, 0, 0, 0, 0, 0, 0, 0, 0, 0⟩

/-- A free environment: peripheral disabled, instance not registered. -/
def w0 : World := ⟨hw0, false⟩

/-- A fresh legacy instance on pins 1/2 with LED pin 3, no flags. -/
def quadFresh : QuadState := (Quad.construct 1 2 3 0 0 w0).state

/-- A fresh `MicroBitQDec` instance (default config, residual memory 0). -/
def qdecFresh : QDecState := (QDec.construct 1 2 3 none 0 w0).state

/-- A `MicroBitQDec` instance constructed with `cfg->samplePeriod = 64`,
below the 128 microsecond hardware floor. -/
def qdec64 : QDecState :=
  (QDec.construct 1 2 3 (some { samplePeriod := 64 }) 0 w0).state

/-- A `MicroBitQDec` instance constructed with `cfg->samplePeriod = 500`. -/
def qdec500 : QDecState :=
  (QDec.construct 1 2 3 (some { samplePeriod := 500 }) 0 w0).state

/-- A legacy instance that is running (as after a successful `start()`). -/
def quadRun : QuadState := { quadFresh with running := true }

/-- A legacy instance that is running with system-tick polling enabled. -/
def quadTick : QuadState :=
  { quadFresh with running := true, usingSystemTick := true }

/-- A `MicroBitQDec` instance that is running with system-tick polling. -/
def qdecRun : QDecState :=
  { qdecFresh with running := true, useSystemTick := true }

/-- A legacy instance whose position was reset to the largest `int64_t`
value via `resetPosition(INT64_MAX)`. -/
def quadMax : QuadState := (Quad.resetPosition quadFresh (2^63 - 1) w0).state

/-- A `MicroBitQDec` instance whose uninitialized `errors` member holds the
residual value `2^32 - 1` (also reachable by accumulating polls). -/
def qdecErrMax : QDecState := (QDec.construct 1 2 3 none (2^32 - 1) w0).state

/-- Intermediate state of the legacy `enableSystemTick(); start()` run. -/
def c2QuadMid : StepOut QuadState := Quad.enableSystemTick quadFresh w0

/-- Final state of the legacy `enableSystemTick(); start()` run. -/
def c2QuadOut : StartOut QuadState := Quad.start c2QuadMid.state c2QuadMid.world

/-- Intermediate state of the `MicroBitQDec` `enableSystemTick(); start()`
run. -/
def c2QDecMid : StepOut QDecState := QDec.enableSystemTick qdecFresh w0

/-- Final state of the `MicroBitQDec` `enableSystemTick(); start()` run. -/
def c2QDecOut : StartOut QDecState := QDec.start c2QDecMid.state c2QDecMid.world

/-! ## Helper lemmas -/

/-- `wrap64` is the identity on the `int64_t` range. -/
theorem wrap64_eq_self (x : Int) (h1 : -(2^63) ≤ x) (h2 : x < 2^63) :
    wrap64 x = x := by
  unfold wrap64; omega

/-- Two's-complement wrapping is a homomorphism for addition. -/
theorem wrap64_wrap64_add (a b : Int) :
    wrap64 (wrap64 a + b) = wrap64 (a + b) := by
  unfold wrap64; omega

/-- `wrap64` always lands in the `int64_t` range. -/
theorem wrap64_range (x : Int) : -(2^63) ≤ wrap64 x ∧ wrap64 x < 2^63 := by
  unfold wrap64; omega

/-- Storing an `int32_t`-range value into a `uint32_t` register and casting
it back with `(int32_t)` recovers the value (sign extension). -/
theorem int32_roundtrip (d : Int) (h1 : -(2^31) ≤ d) (h2 : d < 2^31) :
    int32OfUint32 (uint32OfInt d) = d := by
  unfold int32OfUint32 uint32OfInt
  split <;> omega

/-- Converting a small natural number to `uint32_t` changes nothing. -/
theorem uint32OfInt_ofNat (k : Nat) (h : k < 2^32) :
    uint32OfInt (k : Int) = k := by
  unfold uint32OfInt
  omega

/-- When the configured period is below 128 the selection loop falls all the
way through and leaves the loop variable at `-1`. -/
theorem sampleperGo_neg (p : Nat) (hp : p < 128) :
    ∀ k : Nat, sampleperGo p k = -1 := by
  intro k
  induction k with
  | zero => simp [sampleperGo]; omega
  | succ n ih =>
    have h2 : 1 ≤ 2^(n+1) := Nat.one_le_two_pow
    have hc : ¬ (128 * 2^(n+1) ≤ p) := by nlinarith
    simp [sampleperGo, hc, ih]

/-- When the configured period is at least 128 the selection loop stops at
the largest level `m ≤ k` whose hardware period `128 * 2^m` does not exceed
the configured period. -/
theorem sampleperGo_spec (p : Nat) (hp : 128 ≤ p) :
    ∀ k : Nat, ∃ m : Nat, m ≤ k ∧ sampleperGo p k = (m : Int) ∧
      128 * 2^m ≤ p ∧ ∀ j : Nat, j ≤ k → 128 * 2^j ≤ p → j ≤ m := by
  intro k
  induction k with
  | zero =>
    refine ⟨0, Nat.le_refl 0, ?_, by simpa, fun j hj _ => hj⟩
    simp [sampleperGo, hp]
  | succ n ih =>
    by_cases hc : 128 * 2^(n+1) ≤ p
    · refine ⟨n+1, Nat.le_refl _, ?_, hc, fun j hj _ => hj⟩
      simp [sampleperGo, hc]
    · obtain ⟨m, hm1, hm2, hm3, hm4⟩ := ih
      refine ⟨m, Nat.le_succ_of_le hm1, ?_, hm3, ?_⟩
      · simp [sampleperGo, hc, hm2]
      · intro j hj hle
        rcases Nat.lt_or_ge j (n+1) with h | h
        · exact hm4 j (Nat.lt_succ_iff.mp h) hle
        · have hj' : j = n + 1 := Nat.le_antisymm hj h
          rw [hj'] at hle
          exact absurd hle hc

/-- On the non-busy path, legacy `start()` succeeds and writes the converted
loop value into the `SAMPLEPER` register. -/
theorem quad_start_sampleper (s : QuadState) (w : World)
    (h1 : w.hw.enable = 0) (h2 : s.running = false) :
    (Quad.start s w).world.hw.sampleper
      = uint32OfInt (sampleperFor s.samplePeriod) ∧
    (Quad.start s w).result = DriverResult.ok := by
  simp [Quad.start, h1, h2, readClrAcc]

/-- On the non-busy path, `MicroBitQDec::start()` succeeds and writes the
converted loop value into the `SAMPLEPER` register. -/
theorem qdec_start_sampleper (s : QDecState) (w : World)
    (h1 : w.hw.enable = 0) (h2 : s.running = false) :
    (QDec.start s w).world.hw.sampleper
      = uint32OfInt (sampleperFor s.samplePeriod) ∧
    (QDec.start s w).result = DriverResult.ok := by
  simp [QDec.start, h1, h2, readClrAcc]

/-- Legacy drain sequence: the final position is the two's-complement wrap of
the initial position plus the sum of the (int32-range) deltas. -/
theorem quad_pollSeq_position (inputs : List (Int × Nat)) :
    ∀ (s : QuadState) (h : QDecHw),
      (∀ d ∈ inputs.map Prod.fst, -(2^31) ≤ d ∧ d < 2^31) →
      -(2^63) ≤ s.position → s.position < 2^63 →
      (Quad.pollSeq s h inputs).1.position =
        wrap64 (s.position + (inputs.map Prod.fst).sum) := by
  induction inputs with
  | nil =>
    intro s h _ h1 h2
    simp [Quad.pollSeq]
    exact (wrap64_eq_self s.position h1 h2).symm
  | cons de rest ih =>
    intro s h hd h1 h2
    obtain ⟨d, e⟩ := de
    have hdr : -(2^31) ≤ d ∧ d < 2^31 := hd d (by simp)
    have hrest : ∀ x ∈ rest.map Prod.fst, -(2^31) ≤ x ∧ x < 2^31 := by
      intro x hx; exact hd x (by simp [hx])
    simp only [Quad.pollSeq]
    rw [ih _ _ hrest]
    · have hacc : (readClrAcc { h with acc := d, accdbl := e }).accread
          = uint32OfInt d := by simp [readClrAcc]
      simp only [Quad.poll, hacc, int32_roundtrip d hdr.1 hdr.2]
      rw [wrap64_wrap64_add]
      simp [add_assoc]
    · simp only [Quad.poll]
      exact (wrap64_range _).1
    · simp only [Quad.poll]
      exact (wrap64_range _).2

/-- `MicroBitQDec` drain sequence: same position fold as the legacy class. -/
theorem qdec_pollSeq_position (inputs : List (Int × Nat)) :
    ∀ (s : QDecState) (h : QDecHw),
      (∀ d ∈ inputs.map Prod.fst, -(2^31) ≤ d ∧ d < 2^31) →
      -(2^63) ≤ s.position → s.position < 2^63 →
      (QDec.pollSeq s h inputs).1.position =
        wrap64 (s.position + (inputs.map Prod.fst).sum) := by
  induction inputs with
  | nil =>
    intro s h _ h1 h2
    simp [QDec.pollSeq]
    exact (wrap64_eq_self s.position h1 h2).symm
  | cons de rest ih =>
    intro s h hd h1 h2
    obtain ⟨d, e⟩ := de
    have hdr : -(2^31) ≤ d ∧ d < 2^31 := hd d (by simp)
    have hrest : ∀ x ∈ rest.map Prod.fst, -(2^31) ≤ x ∧ x < 2^31 := by
      intro x hx; exact hd x (by simp [hx])
    simp only [QDec.pollSeq]
    rw [ih _ _ hrest]
    · have hacc : (readClrAcc { h with acc := d, accdbl := e }).accread
          = uint32OfInt d := by simp [readClrAcc]
      simp only [QDec.poll, hacc, int32_roundtrip d hdr.1 hdr.2]
      rw [wrap64_wrap64_add]
      simp [add_assoc]
    · simp only [QDec.poll]
      exact (wrap64_range _).1
    · simp only [QDec.poll]
      exact (wrap64_range _).2

/-- Legacy drain sequence: `errors` follows the saturating-sum formula as
long as no single drained count can make the `uint32_t` addition
`errors + ACCDBLREAD` wrap. -/
theorem quad_pollSeq_errors (inputs : List (Int × Nat)) :
    ∀ (s : QuadState) (h : QDecHw),
      s.errors ≤ 65535 →
      (∀ e ∈ inputs.map Prod.snd, e ≤ 2^32 - 65536) →
      (Quad.pollSeq s h inputs).1.errors =
        min 65535 (s.errors + (inputs.map Prod.snd).sum) := by
  induction inputs with
  | nil =>
    intro s h hs _
    simp [Quad.pollSeq]
    omega
  | cons de rest ih =>
    intro s h hs he
    obtain ⟨d, e⟩ := de
    have heb : e ≤ 2^32 - 65536 := he e (by simp)
    have hrest : ∀ x ∈ rest.map Prod.snd, x ≤ 2^32 - 65536 := by
      intro x hx; exact he x (by simp [hx])
    simp only [Quad.pollSeq]
    rw [ih _ _ (by simp [Quad.poll]) hrest]
    have hacc : (readClrAcc { h with acc := d, accdbl := e }).accdblread
        = e % 2^32 := by simp [readClrAcc]
    simp only [Quad.poll, hacc]
    have he32 : e % 2^32 = e := Nat.mod_eq_of_lt (by omega)
    rw [he32]
    simp only [List.map_cons, List.sum_cons]
    omega

/-- `MicroBitQDec` drain sequence: `errors` accumulates modulo `2^32`
(plain wrapping `uint32_t` addition, no saturation). -/
theorem qdec_pollSeq_errors (inputs : List (Int × Nat)) :
    ∀ (s : QDecState) (h : QDecHw),
      s.errors < 2^32 →
      (QDec.pollSeq s h inputs).1.errors =
        (s.errors + (inputs.map Prod.snd).sum) % 2^32 := by
  induction inputs with
  | nil =>
    intro s h hs
    simp [QDec.pollSeq]
    omega
  | cons de rest ih =>
    intro s h hs
    obtain ⟨d, e⟩ := de
    simp only [QDec.pollSeq]
    rw [ih _ _ (by simp [QDec.poll]; omega)]
    have hacc : (readClrAcc { h with acc := d, accdbl := e }).accdblread
        = e % 2^32 := by simp [readClrAcc]
    simp only [QDec.poll, hacc]
    simp only [List.map_cons, List.sum_cons]
    omega

/-! ## Claims -/

/-- C1, counterexample: a `MicroBitQDec` configured with
`cfg->samplePeriod = 64` (below the 128 microsecond floor, which the
constructor does not validate) starts without error, but the value written
to the `SAMPLEPER` register is the `uint32_t` image of the loop fall-through
value `-1`, namely `4294967295` — not the smallest level `0` the claim
says is selected. -/
theorem claim1_counterexample :
    (QDec.start qdec64 w0).result = DriverResult.ok ∧
    (QDec.start qdec64 w0).world.hw.sampleper = 4294967295 ∧
    (QDec.start qdec64 w0).world.hw.sampleper ≠ 0 := by decide

/-- C1 (amended): for a configured period `p ≥ 128`, both `start()`
implementations program `SAMPLEPER` with the largest level `k ∈ [0,7]` such
that `128 * 2^k ≤ p`; for `p < 128` the selection loop falls through to `-1`
and the register is written with `-1` converted to `uint32_t`
(`4294967295`), not with level `0`; in both cases no error is returned
(`MICROBIT_OK`, the peripheral being free and the instance not running). -/
theorem claim1_sample_period_quantization (sq : QuadState) (s : QDecState)
    (w w' : World)
    (h1 : w.hw.enable = 0) (h2 : sq.running = false)
    (h3 : w'.hw.enable = 0) (h4 : s.running = false) :
    (128 ≤ sq.samplePeriod →
      ∃ k : Nat, k ≤ 7 ∧ (Quad.start sq w).world.hw.sampleper = k ∧
        128 * 2^k ≤ sq.samplePeriod ∧
        ∀ j : Nat, j ≤ 7 → 128 * 2^j ≤ sq.samplePeriod → j ≤ k) ∧
    (sq.samplePeriod < 128 →
      (Quad.start sq w).world.hw.sampleper = 4294967295) ∧
    (Quad.start sq w).result = DriverResult.ok ∧
    (128 ≤ s.samplePeriod →
      ∃ k : Nat, k ≤ 7 ∧ (QDec.start s w').world.hw.sampleper = k ∧
        128 * 2^k ≤ s.samplePeriod ∧
        ∀ j : Nat, j ≤ 7 → 128 * 2^j ≤ s.samplePeriod → j ≤ k) ∧
    (s.samplePeriod < 128 →
      (QDec.start s w').world.hw.sampleper = 4294967295) ∧
    (QDec.start s w').result = DriverResult.ok := by
  obtain ⟨hq, hqok⟩ := quad_start_sampleper sq w h1 h2
  obtain ⟨hd, hdok⟩ := qdec_start_sampleper s w' h3 h4
  refine ⟨?_, ?_, hqok, ?_, ?_, hdok⟩
  · intro hp
    obtain ⟨m, hm7, hmeq, hmle, hmmax⟩ := sampleperGo_spec _ hp 7
    refine ⟨m, hm7, ?_, hmle, hmmax⟩
    rw [hq]
    simp only [sampleperFor]
    rw [hmeq, uint32OfInt_ofNat m (by omega)]
  · intro hp
    rw [hq]
    simp only [sampleperFor]
    rw [sampleperGo_neg _ hp 7]
    decide
  · intro hp
    obtain ⟨m, hm7, hmeq, hmle, hmmax⟩ := sampleperGo_spec _ hp 7
    refine ⟨m, hm7, ?_, hmle, hmmax⟩
    rw [hd]
    simp only [sampleperFor]
    rw [hmeq, uint32OfInt_ofNat m (by omega)]
  · intro hp
    rw [hd]
    simp only [sampleperFor]
    rw [sampleperGo_neg _ hp 7]
    decide

/-- C1, witness: the amended theorem evaluated on a fresh legacy instance
(period 128) and a `MicroBitQDec` configured with period 500 (which selects
level 1, the largest with `128 * 2^k ≤ 500`). -/
theorem claim1_witness :
    w0.hw.enable = 0 ∧ quadFresh.running = false ∧ qdec500.running = false ∧
    128 ≤ qdec500.samplePeriod ∧
    (∃ k : Nat, k ≤ 7 ∧ (QDec.start qdec500 w0).world.hw.sampleper = k ∧
      128 * 2^k ≤ qdec500.samplePeriod ∧
      ∀ j : Nat, j ≤ 7 → 128 * 2^j ≤ qdec500.samplePeriod → j ≤ k) :=
  ⟨by decide, by decide, by decide, by decide,
   (claim1_sample_period_quantization quadFresh qdec500 w0 w0 (by decide)
     (by decide) (by decide) (by decide)).2.2.2.1 (by decide)⟩

/-- C2: on a fresh instance of either class, `enableSystemTick()` followed by
a successful `start()` leaves the instance *unregistered* with the
periodic-tick dispatcher: `start()` calls `system_timer_remove_component`
(never `system_timer_add_component`) when the system-tick flag is set, so
there are zero registrations, not the one the claim (and the
`enableSystemTick()` documentation, "The event is enabled after a call to
start()") requires. -/
theorem claim2_system_tick_registration_bug :
    c2QuadOut.result = DriverResult.ok ∧
    c2QuadOut.world.registered = false ∧
    DrvAction.addComp ∉ c2QuadMid.trace ++ c2QuadOut.trace ∧
    DrvAction.removeComp ∈ c2QuadOut.trace ∧
    c2QDecOut.result = DriverResult.ok ∧
    c2QDecOut.world.registered = false ∧
    DrvAction.addComp ∉ c2QDecMid.trace ++ c2QDecOut.trace ∧
    DrvAction.removeComp ∈ c2QDecOut.trace := by decide

/-- C3, counterexample: `MicroBitQDec::poll()` does `errors += ACCDBLREAD` in
plain `uint32_t` arithmetic.  Starting from `errors = 2^32 - 1`, a single
drained double-transition count of 1 wraps the counter to 0 — the counter
decreases instead of saturating at its maximum representable value, and the
claimed `min(max_value, initial + sum)` formula fails. -/
theorem claim3_counterexample :
    (QDec.pollSeq qdecErrMax hw0 [(0, 1)]).1.errors = 0 ∧
    (QDec.pollSeq qdecErrMax hw0 [(0, 1)]).1.errors < qdecErrMax.errors ∧
    (QDec.pollSeq qdecErrMax hw0 [(0, 1)]).1.errors ≠
      min (2^32 - 1) (qdecErrMax.errors + 1) := by decide

/-- C3 (amended): for the legacy `MicroBitQuadratureDecoder` — whose
`uint16_t errors` field satisfies `errors ≤ 65535` — draining counts
`[e1, ..., en]` yields `errorCount = min(65535, initial + sum(ei))`,
saturating and monotonically non-decreasing, provided each `ei` is small
enough (`ei ≤ 2^32 - 65536`) that the `uint32_t` sum `errors + ACCDBLREAD`
inside `poll()` cannot wrap.  `MicroBitQDec`, by contrast, accumulates its
`uint32_t errors` modulo `2^32`, with no saturation. -/
theorem claim3_error_accumulation (inputs : List (Int × Nat))
    (s : QuadState) (s' : QDecState) (h h' : QDecHw)
    (hs : s.errors ≤ 65535)
    (hbound : ∀ e ∈ inputs.map Prod.snd, e ≤ 2^32 - 65536)
    (hs' : s'.errors < 2^32) :
    (Quad.pollSeq s h inputs).1.errors
        = min 65535 (s.errors + (inputs.map Prod.snd).sum) ∧
    s.errors ≤ (Quad.pollSeq s h inputs).1.errors ∧
    (QDec.pollSeq s' h' inputs).1.errors
        = (s'.errors + (inputs.map Prod.snd).sum) % 2^32 := by
  have hq := quad_pollSeq_errors inputs s h hs hbound
  exact ⟨hq, by rw [hq]; omega, qdec_pollSeq_errors inputs s' h' hs'⟩

/-- C3, witness: the amended theorem evaluated on fresh instances and the
drain sequence `[(0,3), (1,5)]`, giving `errorCount = 8` for the legacy
class. -/
theorem claim3_witness :
    quadFresh.errors ≤ 65535 ∧ qdecFresh.errors < 2^32 ∧
    (Quad.pollSeq quadFresh hw0 [(0, 3), (1, 5)]).1.errors
      = min 65535 (quadFresh.errors
          + (([(0, 3), (1, 5)] : List (Int × Nat)).map Prod.snd).sum) :=
  ⟨by decide, by decide,
   (claim3_error_accumulation [(0, 3), (1, 5)] quadFresh qdecFresh hw0 hw0
     (by decide) (by decide) (by decide)).1⟩

/-- C4, counterexample: with the position at `INT64_MAX = 2^63 - 1`
(reachable directly via `resetPosition`), draining a single delta of `+1`
wraps the `int64_t position` to `-2^63`; it does not equal
`initial_position + sum(di) = 2^63`, which is not representable. -/
theorem claim4_counterexample :
    (Quad.pollSeq quadMax hw0 [(1, 0)]).1.position = -(2^63) ∧
    (Quad.pollSeq quadMax hw0 [(1, 0)]).1.position ≠
      quadMax.position + 1 := by decide

/-- C4 (amended): each `poll()` reads and clears the hardware delta
accumulator and adds it sign-extended to `position`; the final position of
either class equals `initial_position + sum(di)` whenever each delta is in
the `int32_t` range and the mathematical sum stays inside the `int64_t`
range (otherwise the `int64_t` field wraps). -/
theorem claim4_position_accumulation (inputs : List (Int × Nat))
    (s : QuadState) (s' : QDecState) (h h' : QDecHw)
    (hd : ∀ d ∈ inputs.map Prod.fst, -(2^31) ≤ d ∧ d < 2^31)
    (hp1 : -(2^63) ≤ s.position) (hp2 : s.position < 2^63)
    (hq1 : -(2^63) ≤ s'.position) (hq2 : s'.position < 2^63)
    (hsum1 : -(2^63) ≤ s.position + (inputs.map Prod.fst).sum)
    (hsum2 : s.position + (inputs.map Prod.fst).sum < 2^63)
    (hsum1' : -(2^63) ≤ s'.position + (inputs.map Prod.fst).sum)
    (hsum2' : s'.position + (inputs.map Prod.fst).sum < 2^63) :
    (Quad.pollSeq s h inputs).1.position
        = s.position + (inputs.map Prod.fst).sum ∧
    (QDec.pollSeq s' h' inputs).1.position
        = s'.position + (inputs.map Prod.fst).sum := by
  constructor
  · rw [quad_pollSeq_position inputs s h hd hp1 hp2]
    exact wrap64_eq_self _ hsum1 hsum2
  · rw [qdec_pollSeq_position inputs s' h' hd hq1 hq2]
    exact wrap64_eq_self _ hsum1' hsum2'

/-- C4, witness: the amended theorem evaluated on fresh instances and the
drain sequence `[(5,0), (-3,2)]`, giving position `2`. -/
theorem claim4_witness :
    -(2^63) ≤ quadFresh.position ∧ quadFresh.position < 2^63 ∧
    (Quad.pollSeq quadFresh hw0 [(5, 0), (-3, 2)]).1.position
      = quadFresh.position
        + (([(5, 0), (-3, 2)] : List (Int × Nat)).map Prod.fst).sum :=
  ⟨by decide, by decide,
   (claim4_position_accumulation [(5, 0), (-3, 2)] quadFresh qdecFresh hw0 hw0
     (by decide) (by decide) (by decide) (by decide) (by decide) (by decide)
     (by decide) (by decide) (by decide)).1⟩

/-- C5: whenever the peripheral's `ENABLE` register is nonzero or the
instance's running flag is set, `start()` of either class returns
`MICROBIT_BUSY` and leaves the position, error counter and running flag
unchanged (indeed the whole instance, hardware and dispatcher state: the
early return performs no external action). -/
theorem claim5_start_busy (s : QuadState) (s' : QDecState) (w w' : World)
    (h : w.hw.enable ≠ 0 ∨ s.running = true)
    (h' : w'.hw.enable ≠ 0 ∨ s'.running = true) :
    (Quad.start s w).result = DriverResult.busy ∧
    (Quad.start s w).state.position = s.position ∧
    (Quad.start s w).state.errors = s.errors ∧
    (Quad.start s w).state.running = s.running ∧
    (Quad.start s w).world = w ∧ (Quad.start s w).trace = [] ∧
    (QDec.start s' w').result = DriverResult.busy ∧
    (QDec.start s' w').state.position = s'.position ∧
    (QDec.start s' w').state.errors = s'.errors ∧
    (QDec.start s' w').state.running = s'.running ∧
    (QDec.start s' w').world = w' ∧ (QDec.start s' w').trace = [] := by
  have hc : (w.hw.enable != 0 || s.running) = true := by
    rcases h with h | h <;> simp [h]
  have hc' : (w'.hw.enable != 0 || s'.running) = true := by
    rcases h' with h | h <;> simp [h]
  simp [Quad.start, QDec.start, hc, hc']

/-- C5, witness: `start()` on already-running instances of both classes
returns `Busy`. -/
theorem claim5_witness :
    quadRun.running = true ∧ qdecRun.running = true ∧
    (Quad.start quadRun w0).result = DriverResult.busy ∧
    (QDec.start qdecRun w0).result = DriverResult.busy :=
  ⟨by decide, by decide,
   (claim5_start_busy quadRun qdecRun w0 w0 (Or.inr (by decide))
     (Or.inr (by decide))).1,
   (claim5_start_busy quadRun qdecRun w0 w0 (Or.inr (by decide))
     (Or.inr (by decide))).2.2.2.2.2.2.1⟩

/-- C6: `setSamplePeriodUs(p)` with `p < 128` returns
`MICROBIT_INVALID_PARAMETER` and leaves the configured period unchanged;
with `p ≥ 128` it returns `MICROBIT_OK` and `getSamplePeriod()` then
returns exactly `p`. -/
theorem claim6_set_sample_period (s : QuadState) (p : Nat) (hp : p < 2^32) :
    (p < 128 →
      (Quad.setSamplePeriodUs s p).2 = DriverResult.invalidParameter ∧
      Quad.getSamplePeriod (Quad.setSamplePeriodUs s p).1
        = Quad.getSamplePeriod s) ∧
    (128 ≤ p →
      (Quad.setSamplePeriodUs s p).2 = DriverResult.ok ∧
      Quad.getSamplePeriod (Quad.setSamplePeriodUs s p).1 = p) := by
  constructor
  · intro h
    simp [Quad.setSamplePeriodUs, h, Quad.getSamplePeriod]
  · intro h
    have hn : ¬ p < 128 := by omega
    simp [Quad.setSamplePeriodUs, hn, Quad.getSamplePeriod]

/-- C6, witness: setting period 500 on a fresh instance succeeds and
`getSamplePeriod()` then returns 500; setting 100 is rejected with the
stored period unchanged. -/
theorem claim6_witness :
    (500 : Nat) < 2^32 ∧ (100 : Nat) < 2^32 ∧
    ((Quad.setSamplePeriodUs quadFresh 500).2 = DriverResult.ok ∧
      Quad.getSamplePeriod (Quad.setSamplePeriodUs quadFresh 500).1 = 500) ∧
    ((Quad.setSamplePeriodUs quadFresh 100).2
        = DriverResult.invalidParameter ∧
      Quad.getSamplePeriod (Quad.setSamplePeriodUs quadFresh 100).1
        = Quad.getSamplePeriod quadFresh) :=
  ⟨by decide, by decide,
   (claim6_set_sample_period quadFresh 500 (by decide)).2 (by decide),
   (claim6_set_sample_period quadFresh 100 (by decide)).1 (by decide)⟩

/-- C7: the `MicroBitQDec` constructor never assigns the `errors` member
(which also has no in-class initializer), so a freshly constructed instance
keeps the indeterminate residual content of that memory — here residual 7 —
instead of the `errorCount = 0` the claim requires; `position = 0`, the
not-running state and the absence of hardware access do hold, and the legacy
class (whose field carries the in-class initializer `= 0`) starts at 0. -/
theorem claim7_uninitialized_errors_bug :
    (QDec.construct 1 2 3 none 7 w0).state.errors = 7 ∧
    (QDec.construct 1 2 3 none 7 w0).state.errors ≠ 0 ∧
    (QDec.construct 1 2 3 none 7 w0).state.position = 0 ∧
    (QDec.construct 1 2 3 none 7 w0).state.running = false ∧
    (QDec.construct 1 2 3 none 7 w0).trace = [] ∧
    (QDec.construct 1 2 3 none 7 w0).world = w0 ∧
    (Quad.construct 1 2 3 0 0 w0).state.errors = 0 ∧
    (Quad.construct 1 2 3 0 0 w0).state.position = 0 ∧
    (Quad.construct 1 2 3 0 0 w0).state.running = false ∧
    (Quad.construct 1 2 3 0 0 w0).trace = [] := by decide

/-- C8, counterexample: `MicroBitQDec::stop()` on a running instance with
system-tick polling active stops and disables the hardware *before*
deregistering from the dispatcher — the deregistration is the last action of
the trace, not the first as the claim states. -/
theorem claim8_counterexample :
    qdecRun.running = true ∧ qdecRun.useSystemTick = true ∧
    (QDec.stop qdecRun w0).trace =
      [DrvAction.writeReg Reg.tasksStop 1, DrvAction.writeReg Reg.enable 0,
       DrvAction.removeComp] ∧
    (QDec.stop qdecRun w0).trace.head? ≠ some DrvAction.removeComp := by
  decide

/-- C8 (amended): `stop()` of either class is idempotent on the instance and
environment state, always leaves `running` false, and performs no hardware
register write when called on an already-stopped instance; when system-tick
polling is active the legacy class deregisters *first* (first trace action),
while `MicroBitQDec` deregisters *last*, after the hardware stop/disable. -/
theorem claim8_stop_idempotent (s : QuadState) (s' : QDecState)
    (w w' : World) :
    (Quad.stop (Quad.stop s w).state (Quad.stop s w).world).state
      = (Quad.stop s w).state ∧
    (Quad.stop (Quad.stop s w).state (Quad.stop s w).world).world
      = (Quad.stop s w).world ∧
    (Quad.stop s w).state.running = false ∧
    (s.running = false →
      ∀ r v, DrvAction.writeReg r v ∉ (Quad.stop s w).trace) ∧
    (s.usingSystemTick = true →
      (Quad.stop s w).trace.head? = some DrvAction.removeComp) ∧
    (QDec.stop (QDec.stop s' w').state (QDec.stop s' w').world).state
      = (QDec.stop s' w').state ∧
    (QDec.stop (QDec.stop s' w').state (QDec.stop s' w').world).world
      = (QDec.stop s' w').world ∧
    (QDec.stop s' w').state.running = false ∧
    (s'.running = false →
      ∀ r v, DrvAction.writeReg r v ∉ (QDec.stop s' w').trace) ∧
    (s'.useSystemTick = true →
      (QDec.stop s' w').trace.getLast? = some DrvAction.removeComp) := by
  cases hr : s.running <;> cases ht : s.usingSystemTick <;>
    cases hr' : s'.running <;> cases ht' : s'.useSystemTick <;>
      simp [Quad.stop, QDec.stop, hr, ht, hr', ht']

/-- C8, witness: the amended theorem evaluated on a running legacy instance
with system-tick polling (deregistration is the first stop action) and a
running `MicroBitQDec` (running false afterwards). -/
theorem claim8_witness :
    quadTick.usingSystemTick = true ∧
    (Quad.stop quadTick w0).trace.head? = some DrvAction.removeComp ∧
    (QDec.stop qdecRun w0).state.running = false :=
  ⟨by decide,
   (claim8_stop_idempotent quadTick qdecRun w0 w0).2.2.2.2.1 (by decide),
   (claim8_stop_idempotent quadTick qdecRun w0 w0).2.2.2.2.2.2.2.1⟩

/-- C9: `resetPosition(v)` of either class sets the position to exactly `v`
(immediately visible through `getPosition()`) for any `int64_t` value `v`,
in any instance state (running or not), leaves the error counter and running
flag unchanged, performs no external action, and leaves the hardware —
including any not-yet-drained accumulator content — untouched. -/
theorem claim9_reset_position (s : QuadState) (s' : QDecState) (w w' : World)
    (v : Int) (h1 : -(2^63) ≤ v) (h2 : v < 2^63) :
    Quad.getPosition (Quad.resetPosition s v w).state = v ∧
    Quad.getErrors (Quad.resetPosition s v w).state = Quad.getErrors s ∧
    (Quad.resetPosition s v w).state.running = s.running ∧
    (Quad.resetPosition s v w).world = w ∧
    (Quad.resetPosition s v w).trace = [] ∧
    QDec.getPosition (QDec.resetPosition s' v w').state = v ∧
    QDec.getErrors (QDec.resetPosition s' v w').state = QDec.getErrors s' ∧
    (QDec.resetPosition s' v w').state.running = s'.running ∧
    (QDec.resetPosition s' v w').world = w' ∧
    (QDec.resetPosition s' v w').trace = [] := by
  simp [Quad.resetPosition, QDec.resetPosition, Quad.getPosition,
    QDec.getPosition, Quad.getErrors, QDec.getErrors,
    wrap64_eq_self v h1 h2]

/-- C9, witness: resetting to 42 on fresh instances (with a pending
undrained hardware delta in `acc`, which is not consulted). -/
theorem claim9_witness :
    -(2^63) ≤ (42 : Int) ∧ (42 : Int) < 2^63 ∧
    Quad.getPosition
      (Quad.resetPosition quadFresh 42 ⟨{ hw0 with acc := 9 }, false⟩).state
      = 42 ∧
    QDec.getPosition
      (QDec.resetPosition qdecFresh 42 ⟨{ hw0 with acc := 9 }, false⟩).state
      = 42 :=
  ⟨by decide, by decide,
   (claim9_reset_position quadFresh qdecFresh ⟨{ hw0 with acc := 9 }, false⟩
     ⟨{ hw0 with acc := 9 }, false⟩ 42 (by decide) (by decide)).1,
   (claim9_reset_position quadFresh qdecFresh ⟨{ hw0 with acc := 9 }, false⟩
     ⟨{ hw0 with acc := 9 }, false⟩ 42 (by decide) (by decide)).2.2.2.2.2.1⟩

/-- C10: `start()` of either class never touches the software `position` and
`errors` fields (in particular a successful `start()` clears only the
hardware accumulators, via `TASKS_READCLRACC`), and `stop()` does not touch
them either — so position and accumulated errors persist across repeated
`stop()`/`start()` cycles, even though `getErrors()` is documented as
counting errors since `start()`. -/
theorem claim10_start_preserves_position_errors (s : QuadState)
    (s' : QDecState) (w w' : World) :
    (Quad.start s w).state.position = s.position ∧
    (Quad.start s w).state.errors = s.errors ∧
    (Quad.stop s w).state.position = s.position ∧
    (Quad.stop s w).state.errors = s.errors ∧
    (QDec.start s' w').state.position = s'.position ∧
    (QDec.start s' w').state.errors = s'.errors ∧
    (QDec.stop s' w').state.position = s'.position ∧
    (QDec.stop s' w').state.errors = s'.errors := by
  have hqs : (Quad.start s w).state.position = s.position ∧
      (Quad.start s w).state.errors = s.errors := by
    cases hc : (w.hw.enable != 0 || s.running) <;> simp [Quad.start, hc]
  have hqp : (Quad.stop s w).state.position = s.position ∧
      (Quad.stop s w).state.errors = s.errors := by
    cases hr : s.running <;> simp [Quad.stop, hr]
  have hds : (QDec.start s' w').state.position = s'.position ∧
      (QDec.start s' w').state.errors = s'.errors := by
    cases hc' : (w'.hw.enable != 0 || s'.running) <;> simp [QDec.start, hc']
  have hdp : (QDec.stop s' w').state.position = s'.position ∧
      (QDec.stop s' w').state.errors = s'.errors := by
    cases hr' : s'.running <;> simp [QDec.stop, hr']
  exact ⟨hqs.1, hqs.2, hqp.1, hqp.2, hds.1, hds.2, hdp.1, hdp.2⟩
